import Mathlib

/-!
Verification of the hashi resource-reconciliation engine
(`internal/resource` of wasabi0522/hashi), shallow-embedded in Lean.

Strings are modelled as Lean `String` (Go strings are byte slices; all
inputs of interest are valid UTF-8, and the Go code iterates runes where
it matters, which coincides with `String.data`). Machine integers of the
`Status` type are modelled as `Int` (Go `int`). Fallible adapter calls
return `Except String` values; a Go `(zeroValue, err)` return is the
`.error` case, which matches the git/tmux clients, which return the zero
value alongside every error.
-/

namespace Hashi

/-- `strings.ContainsAny(s, chars)`: true iff some char of `chars` occurs in `s`. -/
def containsAnyChar (s chars : String) : Bool :=
  s.data.any (fun c => chars.data.contains c)

/-- Boolean list-prefix test (mirrors Go byte-wise prefix comparison). -/
def isPrefixL : List Char → List Char → Bool
  | [], _ => true
  | _ :: _, [] => false
  | a :: as, b :: bs => a == b && isPrefixL as bs

/-- Boolean substring test on char lists: some suffix starts with `pat`. -/
def isSubL (pat : List Char) : List Char → Bool
  | [] => isPrefixL pat []
  | c :: rest => isPrefixL pat (c :: rest) || isSubL pat rest

/-- `strings.Contains(s, pat)`. -/
def containsSub (s pat : String) : Bool :=
  isSubL pat.data s.data

/-- `strings.HasPrefix(s, p)`. -/
def hasPrefixS (s p : String) : Bool :=
  isPrefixL p.data s.data

/-- `strings.HasSuffix(s, p)`. -/
def hasSuffixS (s p : String) : Bool :=
  isPrefixL p.data.reverse s.data.reverse

/-- `validate.go`: one entry of the `branchRules` table. -/
structure BranchRule where
  check : String → Bool
  message : String

/-- Whether a rune is a control character (`r < 0x20 || r == 0x7f`). -/
def isCtrlChar (c : Char) : Bool :=
  decide (c.val < 0x20) || c.val == 0x7f

/-- `validate.go` `branchRules`, in source order. -/
def branchRules : List BranchRule :=
  [ ⟨fun n => n == "", "branch name must not be empty"⟩,
    ⟨fun n => containsAnyChar n " \t", "branch name contains whitespace"⟩,
    ⟨fun n => n.data.any isCtrlChar, "branch name contains control character"⟩,
    ⟨fun n => containsAnyChar n "~^*?[\\", "branch name contains invalid character"⟩,
    ⟨fun n => containsSub n ":", "branch name contains \x27:\x27"⟩,
    ⟨fun n => containsSub n "..", "branch name contains \x27..\x27"⟩,
    ⟨fun n => containsSub n "@\x7b", "branch name contains \x27@\x7b\x27"⟩,
    ⟨fun n => hasPrefixS n "-", "branch name must not start with \x27-\x27"⟩,
    ⟨fun n => hasPrefixS n ".", "branch name must not start with \x27.\x27"⟩,
    ⟨fun n => hasSuffixS n ".", "branch name must not end with \x27.\x27"⟩,
    ⟨fun n => hasSuffixS n "/", "branch name must not end with \x27/\x27"⟩,
    ⟨fun n => containsSub n "//", "branch name contains \x27//\x27"⟩,
    ⟨fun n => hasSuffixS n ".lock", "branch name must not end with \x27.lock\x27"⟩ ]

/-- First matching rule wins (the loop body of `ValidateBranchName`). -/
def firstRuleMatch : List BranchRule → String → Option String
  | [], _ => none
  | r :: rest, n => if r.check n then some r.message else firstRuleMatch rest n

/-- `ValidateBranchName`: `some message` is the Go error, `none` is success. -/
def ValidateBranchName (name : String) : Option String :=
  firstRuleMatch branchRules name

/-- The validator transcribed from the spec sentence, rule by rule, with the
one amendment the code forces: the `//` rule is evaluated before the
`.lock` suffix rule (the spec lists the suffix rules first). -/
def specValidateAmended (n : String) : Option String :=
  if n == "" then some "branch name must not be empty"
  else if containsAnyChar n " \t" then some "branch name contains whitespace"
  else if n.data.any isCtrlChar then some "branch name contains control character"
  else if containsAnyChar n "~^*?[\\" then some "branch name contains invalid character"
  else if containsSub n ":" then some "branch name contains \x27:\x27"
  else if containsSub n ".." then some "branch name contains \x27..\x27"
  else if containsSub n "@\x7b" then some "branch name contains \x27@\x7b\x27"
  else if hasPrefixS n "-" then some "branch name must not start with \x27-\x27"
  else if hasPrefixS n "." then some "branch name must not start with \x27.\x27"
  else if hasSuffixS n "." then some "branch name must not end with \x27.\x27"
  else if hasSuffixS n "/" then some "branch name must not end with \x27/\x27"
  else if containsSub n "//" then some "branch name contains \x27//\x27"
  else if hasSuffixS n ".lock" then some "branch name must not end with \x27.lock\x27"
  else none

/-! ## Status (`resource.go`) -/

/-- One row of `statusTable`. -/
structure StatusMeta where
  name : String
  label : String
  suggest : String
deriving DecidableEq

/-- `statusTable` from `resource.go`. -/
def statusTable : List StatusMeta :=
  [ ⟨"ok", "", ""⟩,
    ⟨"worktree_missing", "worktree missing", "new"⟩,
    ⟨"orphaned_window", "orphaned window", "remove"⟩,
    ⟨"orphaned_worktree", "orphaned worktree", "remove"⟩ ]

def StatusOK : Int := 0
def StatusWorktreeMissing : Int := 1
def StatusOrphanedWindow : Int := 2
def StatusOrphanedWorktree : Int := 3

/-- `Status.meta()`: `statusTable[s]` when `int(s) < len(statusTable)`, else the
`unknown` meta. For a negative `s` the guard passes and the Go array index
panics at runtime; the panic is modelled as `none`. -/
def statusMetaGo (s : Int) : Option StatusMeta :=
  if s < (statusTable.length : Int) then
    if 0 ≤ s then statusTable.get? s.toNat else none
  else some ⟨"unknown", "", ""⟩

/-- `Status.String()`; `none` propagates the index panic. -/
def statusString (s : Int) : Option String :=
  (statusMetaGo s).map (fun m => m.name)

/-- `Status.MarshalJSON()`: `fmt.Appendf(nil, "%q", s.String())`. All
reachable names are ASCII without quote or backslash characters, so `%q`
is plain double-quote wrapping. The Go error result is always nil; the
`Option` only propagates the index panic. -/
def statusMarshalJSON (s : Int) : Option String :=
  (statusString s).map (fun n => "\"" ++ n ++ "\"")

/-- `strings.Trim(s, "\"")`: strip leading and trailing double quotes. -/
def trimQuotes (s : String) : String :=
  String.mk (((s.data.dropWhile (fun c => c == '"')).reverse.dropWhile
    (fun c => c == '"')).reverse)

/-- `Status.UnmarshalJSON(data)`: trim quotes, then first index of
`statusTable` whose name matches, else the `unknown status` error. -/
def statusUnmarshalJSON (data : String) : Except String Int :=
  let str := trimQuotes data
  match statusTable.findIdx? (fun m => m.name == str) with
  | some i => .ok (i : Int)
  | none => .error ("unknown status: " ++ str)

/-! ## Shell quoting (`shellQuote`) and a POSIX word parser -/

/-- The single-quote character, written via its code point. -/
def squote : Char := Char.ofNat 39

/-- The backslash character. -/
def bslash : Char := '\\'

/-- Body of `strings.ReplaceAll(s, sq, sq bs sq sq)`: every single quote
becomes the four-character close-escape-reopen sequence. -/
def shQuoteChars : List Char → List Char
  | [] => []
  | c :: rest =>
    if c = squote then squote :: bslash :: squote :: squote :: shQuoteChars rest
    else c :: shQuoteChars rest

/-- `shellQuote` from `errors.go`: wrap in single quotes, escaping embedded
single quotes with the close-escape-reopen technique. -/
def shellQuote (s : String) : String :=
  String.mk (squote :: (shQuoteChars s.data ++ [squote]))

/-- POSIX shell word parsing restricted to the constructs `shellQuote`
emits: outside quotes a backslash escapes the next character and a single
quote opens a quoted segment; inside single quotes every character is
literal until the closing quote. `none` is a parse error (unterminated
quote or trailing backslash). The Bool flag is the inside-quotes state. -/
def parseSh : Bool → List Char → Option (List Char)
  | true, [] => none
  | true, c :: rest =>
    if c = squote then parseSh false rest
    else (parseSh true rest).map (fun t => c :: t)
  | false, [] => some []
  | false, c :: rest =>
    if c = squote then parseSh true rest
    else if c = bslash then
      match rest with
      | [] => none
      | d :: rest2 => (parseSh false rest2).map (fun t => d :: t)
    else (parseSh false rest).map (fun t => c :: t)
termination_by _ cs => cs.length

/-- Parse one shell word starting outside quotes. -/
def shUnquote (s : String) : Option String :=
  (parseSh false s.data).map String.mk

/-! ## Data model: worktrees, windows, states (`git`, `tmux`, `resource.go`) -/

/-- `git.Worktree`. -/
structure Worktree where
  path : String
  branch : String
  isMain : Bool
  detached : Bool
deriving DecidableEq

/-- `tmux.Window`. -/
structure Window where
  name : String
  active : Bool
deriving DecidableEq

/-- `resource.State`. The status field is a `Status` (an `Int`). -/
structure State where
  branch : String
  worktree : String
  window : Bool
  active : Bool
  isDefault : Bool
  status : Int
deriving DecidableEq

/-- `findWorktree` (via `findBy`): first worktree whose branch matches. -/
def findWorktree (worktrees : List Worktree) (branch : String) : Option Worktree :=
  worktrees.find? (fun wt => wt.branch == branch)

/-- `findWindow` (via `findBy`): first window whose name matches. -/
def findWindow (windows : List Window) (name : String) : Option Window :=
  windows.find? (fun w => w.name == name)

/-! ## CollectState (`collect.go`) -/

/-- `classifyWorktreeStatus`: OK for main, orphaned when the branch is not
in the branch set, OK otherwise. The Go branch set is built with `toSet`;
membership in the set equals membership in the source list. -/
def classifyWorktreeStatus (wt : Worktree) (branches : List String) : Int :=
  if wt.isMain then StatusOK
  else if !(branches.contains wt.branch) then StatusOrphanedWorktree
  else StatusOK

/-- `classifyWindowOnlyStatus`. -/
def classifyWindowOnlyStatus (name : String) (branches : List String) : Int :=
  if branches.contains name then StatusWorktreeMissing
  else StatusOrphanedWindow

/-- Lookup in the map built by `toMap(windows, Name)`: with duplicate names
the later entry overwrites, so the lookup returns the last match. -/
def winLookup (windows : List Window) (name : String) : Option Window :=
  windows.foldl (fun acc w => if w.name == name then some w else acc) none

/-- The worktree-derived `State` entry built by the first loop of
`CollectState`. -/
def mkWorktreeState (wt : Worktree) (branches : List String)
    (windows : List Window) (defaultBranch : String) : State :=
  let win := winLookup windows wt.branch
  { branch := wt.branch
    worktree := wt.path
    window := win.isSome
    active := match win with | some w => w.active | none => false
    isDefault := wt.branch == defaultBranch
    status := classifyWorktreeStatus wt branches }

/-- The window-only `State` entry built by the second loop of `CollectState`. -/
def mkWindowState (w : Window) (branches : List String) : State :=
  { branch := w.name
    worktree := ""
    window := true
    active := w.active
    isDefault := false
    status := classifyWindowOnlyStatus w.name branches }

/-- `CollectState`, as a pure function of the freshly queried snapshots.
The first fold is the worktree loop (accumulating `states` and the `seen`
set); the second fold is the window loop over the same `states` list. -/
def collectState (worktrees : List Worktree) (branches : List String)
    (windows : List Window) (defaultBranch : String) : List State :=
  let p := worktrees.foldl
    (fun (acc : List State × List String) wt =>
      if wt.detached then acc
      else (acc.1 ++ [mkWorktreeState wt branches windows defaultBranch],
            acc.2 ++ [wt.branch]))
    ([], [])
  windows.foldl
    (fun states w =>
      if p.2.contains w.name then states
      else states ++ [mkWindowState w branches])
    p.1

/-- `CollectState` transcribed from the spec sentence: entries for the
non-detached worktrees in store order, then entries for the windows not
matched by any (non-detached) worktree in store order; detached worktrees
and branch-only names produce nothing. -/
def collectStateSpec (worktrees : List Worktree) (branches : List String)
    (windows : List Window) (defaultBranch : String) : List State :=
  let nonDetached := worktrees.filter (fun wt => !wt.detached)
  let matched := nonDetached.map (fun wt => wt.branch)
  nonDetached.map (fun wt => mkWorktreeState wt branches windows defaultBranch)
    ++ (windows.filter (fun w => !(matched.contains w.name))).map
        (fun w => mkWindowState w branches)

/-! ## Service operations as trace-producing functions

Each adapter call of the `Service` is recorded as an `Event`; the results
of the external calls are supplied by an `Oracle`. A Go `(zero, err)`
adapter return is an `Except.error`; the git and tmux clients return the
zero value alongside every error, so dropping the value on the error path
is exact. -/

/-- One adapter (or filesystem) call made by the engine. Queries and
mutations are both recorded so that call order can be stated. -/
inductive Event where
  | branchExistsQ (name : String)
  | listWorktreesQ
  | addWorktreeNewBranchE (path branch base : String)
  | addWorktreeE (path branch : String)
  | removeWorktreeE (path : String)
  | deleteBranchE (name : String)
  | deleteBranchFromE (dir name : String)
  | renameBranchE (old new : String)
  | repairWorktreesE
  | copyFilesE (dst : String)
  | mkdirParentE (path : String)
  | osRenameE (src dst : String)
  | osRemoveE (path : String)
  | hasSessionQ (name : String)
  | listWindowsQ (session : String)
  | newSessionE (session window dir initCmd : String)
  | newWindowE (session window dir initCmd : String)
  | killWindowE (session window : String)
  | killSessionE (session : String)
  | renameWindowE (session oldName newName : String)
  | paneCurrentCommandQ (session window : String)
  | sendKeysE (session window : String)
  | switchClientE (session window : String)
  | attachSessionE (session window : String)
  | hasUncommittedQ (path : String)
  | isMergedQ (branch base : String)
deriving DecidableEq

/-- Results of the external calls, one field per call site kind. Errors
carry the adapter's message (used verbatim or wrapped by the engine). -/
structure Oracle where
  branchExists : String → Except String Bool
  listWorktrees : Except String (List Worktree)
  addWorktreeNewBranch : Except String Unit
  addWorktree : Except String Unit
  removeWorktree : Except String Unit
  deleteBranch : Except String Unit
  deleteBranchFrom : Except String Unit
  renameBranch : Except String Unit
  repairWorktrees : Except String Unit
  copyFilesR : Except String Unit
  mkdirParent : Except String Unit
  osRename : Except String Unit
  hasSession : Except String Bool
  listWindows : Except String (List Window)
  newSession : Except String Unit
  newWindow : Except String Unit
  killWindow : Except String Unit
  killSession : Except String Unit
  paneCurrentCommand : Except String String
  sendKeys : Except String Unit
  switchClient : Except String Unit
  attachSession : Except String Unit
  hasUncommitted : Except String Bool
  isMerged : Except String Bool
  isInsideTmux : Bool

/-- `CommonParams`, plus the shell allow-list of the `Service` and the
value of the `SHELL` environment variable read by `buildInitCmd`. -/
structure Params where
  repoRoot : String
  worktreeDir : String
  defaultBranch : String
  sessionName : String
  copyFiles : List String
  postNewHooks : List String
  shellCommands : List String
  shellEnv : String

/-- `filepath.Join(RepoRoot, WorktreeDir)`, modelled as slash-joining
(adequate for clean relative components, which is how the engine uses it). -/
def worktreeBase (cp : Params) : String :=
  cp.repoRoot ++ "/" ++ cp.worktreeDir

/-- `CommonParams.WorktreePath`. -/
def worktreePath (cp : Params) (branch : String) : String :=
  worktreeBase cp ++ "/" ++ branch

/-- `filepath.Dir`, modelled for clean slash paths without trailing slash. -/
def dirOf (p : String) : String :=
  let parts := p.splitOn "/"
  if parts.length ≤ 1 then "." else String.intercalate "/" parts.dropLast

/-- `OperationType` constants. -/
def opNewT : Nat := 0
def opSwitchT : Nat := 1
def opRenameT : Nat := 2

/-- `OperationResult`. -/
structure OperationResult where
  operation : Nat
  branch : String
  worktreePathR : String
  created : Bool
deriving DecidableEq

/-- `buildInitCmd`: empty unless the worktree was freshly created and hooks
are configured; otherwise the fail-fast hook pipeline ending in an exec of
the user's shell (from `$SHELL`, falling back to `sh`). -/
def buildInitCmd (cp : Params) (wtCreated : Bool) : String :=
  if !wtCreated || cp.postNewHooks.isEmpty then ""
  else
    let shell := if cp.shellEnv == "" then "sh" else cp.shellEnv
    "for __cmd in " ++ String.intercalate " " (cp.postNewHooks.map shellQuote)
      ++ "; do sh -c \"$__cmd\" || exit 1; done; exec " ++ shellQuote shell

/-- `sendCd`: probe the pane command; on probe error stop; send keys only
when the foreground command is in the shell allow-list. All best-effort. -/
def sendCdEvents (o : Oracle) (cp : Params) (session window : String) : List Event :=
  Event.paneCurrentCommandQ session window ::
    (match o.paneCurrentCommand with
     | .error _ => []
     | .ok cmd => if cp.shellCommands.contains cmd then [Event.sendKeysE session window] else [])

/-- `ensureTmux`: create session if absent, else create window if absent,
else push a directory change into the existing window. -/
def ensureTmux (o : Oracle) (cp : Params) (session window dir initCmd : String) :
    List Event × Except String Unit :=
  match o.hasSession with
  | .error e => ([Event.hasSessionQ session], .error ("checking session: " ++ e))
  | .ok false =>
    ([Event.hasSessionQ session, Event.newSessionE session window dir initCmd], o.newSession)
  | .ok true =>
    match o.listWindows with
    | .error e =>
      ([Event.hasSessionQ session, Event.listWindowsQ session],
       .error ("listing windows: " ++ e))
    | .ok ws =>
      match findWindow ws window with
      | some _ =>
        ([Event.hasSessionQ session, Event.listWindowsQ session]
          ++ sendCdEvents o cp session window, .ok ())
      | none =>
        ([Event.hasSessionQ session, Event.listWindowsQ session,
          Event.newWindowE session window dir initCmd], o.newWindow)

/-- `listWindowsSafe`: `none` models the nil slice (session absent, session
probe failed, or window listing failed). -/
def listWindowsSafeT (o : Oracle) (session : String) :
    List Event × Option (List Window) :=
  let ok := match o.hasSession with | .ok b => b | .error _ => false
  if !ok then ([Event.hasSessionQ session], none)
  else
    ([Event.hasSessionQ session, Event.listWindowsQ session],
     match o.listWindows with | .ok ws => some ws | .error _ => none)

/-- `connect`: switch the client when already inside the multiplexer,
otherwise attach. -/
def connectT (o : Oracle) (session window : String) : List Event × Except String Unit :=
  if o.isInsideTmux then ([Event.switchClientE session window], o.switchClient)
  else ([Event.attachSessionE session window], o.attachSession)

/-- `cleanWorktreeParent`: best-effort removal of the now-possibly-empty
parent, never the configured worktree base itself. -/
def cleanParentEvents (cp : Params) (wtPath : String) : List Event :=
  if dirOf wtPath != worktreeBase cp then [Event.osRemoveE (dirOf wtPath)] else []

/-- `findOrCreateWorktree`: reuse a matching entry of a fresh listing, else
create at the canonical path after making parent directories. Result is
(path, wasCreated). -/
def findOrCreateWorktreeT (o : Oracle) (cp : Params) (branch : String) :
    List Event × Except String (String × Bool) :=
  match o.listWorktrees with
  | .error e => ([Event.listWorktreesQ], .error ("listing worktrees: " ++ e))
  | .ok wts =>
    match findWorktree wts branch with
    | some wt => ([Event.listWorktreesQ], .ok (wt.path, false))
    | none =>
      let path := worktreePath cp branch
      match o.mkdirParent with
      | .error e =>
        ([Event.listWorktreesQ, Event.mkdirParentE path],
         .error ("adding worktree: " ++ e))
      | .ok _ =>
        match o.addWorktree with
        | .error e =>
          ([Event.listWorktreesQ, Event.mkdirParentE path,
            Event.addWorktreeE path branch], .error ("adding worktree: " ++ e))
        | .ok _ =>
          ([Event.listWorktreesQ, Event.mkdirParentE path,
            Event.addWorktreeE path branch], .ok (path, true))

/-- `ensureWorktree`: the default branch short-circuits to the repo root. -/
def ensureWorktreeT (o : Oracle) (cp : Params) (branch : String) :
    List Event × Except String (String × Bool) :=
  if branch == cp.defaultBranch then ([], .ok (cp.repoRoot, false))
  else findOrCreateWorktreeT o cp branch

/-! ### New (`new.go`) -/

/-- `NewParams`. -/
structure NewParams where
  branch : String
  base : String

/-- `rollbackNew`: best-effort removal of the created worktree, then
best-effort deletion of the created branch; the two attempts are issued
independently and their results are ignored. -/
def rollbackNewT (wtCreated branchCreated : Bool) (wtPath branch : String) : List Event :=
  (if wtCreated then [Event.removeWorktreeE wtPath] else [])
    ++ (if branchCreated then [Event.deleteBranchE branch] else [])

/-- Branch/worktree acquisition phase of `New` (after the base checks).
Result is (wtPath, wtCreated, branchCreated). -/
def newAcquire (o : Oracle) (cp : Params) (p : NewParams) (branchExists : Bool) :
    List Event × Except String (String × Bool × Bool) :=
  if branchExists then
    match ensureWorktreeT o cp p.branch with
    | (t, .error e) => (t, .error ("ensuring worktree: " ++ e))
    | (t, .ok (path, created)) => (t, .ok (path, created, false))
  else
    let base := if p.base == "" then cp.defaultBranch else p.base
    match o.branchExists base with
    | .error e =>
      ([Event.branchExistsQ base], .error ("checking branch \"" ++ base ++ "\": " ++ e))
    | .ok false =>
      ([Event.branchExistsQ base], .error ("branch \x27" ++ base ++ "\x27 does not exist"))
    | .ok true =>
      let path := worktreePath cp p.branch
      match o.mkdirParent with
      | .error e =>
        ([Event.branchExistsQ base, Event.mkdirParentE path],
         .error ("creating worktree: " ++ e))
      | .ok _ =>
        match o.addWorktreeNewBranch with
        | .error e =>
          ([Event.branchExistsQ base, Event.mkdirParentE path,
            Event.addWorktreeNewBranchE path p.branch base],
           .error ("creating worktree: " ++ e))
        | .ok _ =>
          ([Event.branchExistsQ base, Event.mkdirParentE path,
            Event.addWorktreeNewBranchE path p.branch base],
           .ok (path, true, true))

/-- File-copy, tmux and connect phase of `New`, with the best-effort
rollback on copy or tmux failure. -/
def newFinish (o : Oracle) (cp : Params) (p : NewParams)
    (wtPath : String) (wtCreated branchCreated : Bool) :
    List Event × Except String OperationResult :=
  let tc : List Event := if wtCreated then [Event.copyFilesE wtPath] else []
  let rc : Except String Unit := if wtCreated then o.copyFilesR else .ok ()
  match rc with
  | .error e => (tc ++ rollbackNewT wtCreated branchCreated wtPath p.branch, .error e)
  | .ok _ =>
    let initCmd := buildInitCmd cp wtCreated
    match ensureTmux o cp cp.sessionName p.branch wtPath initCmd with
    | (tt, .error e) =>
      (tc ++ tt ++ rollbackNewT wtCreated branchCreated wtPath p.branch, .error e)
    | (tt, .ok _) =>
      match connectT o cp.sessionName p.branch with
      | (tn, .error e) => (tc ++ tt ++ tn, .error e)
      | (tn, .ok _) =>
        (tc ++ tt ++ tn, .ok ⟨opNewT, p.branch, wtPath, wtCreated⟩)

/-- `New`: validate, check base rules, acquire branch+worktree, then copy
files and ensure the session/window, rolling back created resources on a
step-4 failure. -/
def newOp (o : Oracle) (cp : Params) (p : NewParams) :
    List Event × Except String OperationResult :=
  match ValidateBranchName p.branch with
  | some m => ([], .error m)
  | none =>
    match (if p.base != "" then ValidateBranchName p.base else none) with
    | some m => ([], .error ("invalid base branch: " ++ m))
    | none =>
      match o.branchExists p.branch with
      | .error e => ([Event.branchExistsQ p.branch], .error ("checking branch: " ++ e))
      | .ok branchExists =>
        if branchExists && p.base != "" then
          ([Event.branchExistsQ p.branch],
           .error ("cannot specify base branch for existing branch \x27"
             ++ p.branch ++ "\x27"))
        else
          match newAcquire o cp p branchExists with
          | (ta, .error e) => (Event.branchExistsQ p.branch :: ta, .error e)
          | (ta, .ok (wtPath, wtCreated, branchCreated)) =>
            match newFinish o cp p wtPath wtCreated branchCreated with
            | (tf, r) => (Event.branchExistsQ p.branch :: (ta ++ tf), r)

/-! ### Rename (`rename.go`) -/

/-- `moveWorktree`: make the parent, physically move the directory, repair
worktree links; on repair failure undo the move (best-effort) and fail. -/
def moveWorktreeT (o : Oracle) (cp : Params) (pNew oldPath : String) :
    List Event × Except String String :=
  let newPath := worktreePath cp pNew
  match o.mkdirParent with
  | .error e => ([Event.mkdirParentE newPath], .error ("creating directory: " ++ e))
  | .ok _ =>
    match o.osRename with
    | .error e =>
      ([Event.mkdirParentE newPath, Event.osRenameE oldPath newPath],
       .error ("moving worktree: " ++ e))
    | .ok _ =>
      match o.repairWorktrees with
      | .error e =>
        ([Event.mkdirParentE newPath, Event.osRenameE oldPath newPath,
          Event.repairWorktreesE, Event.osRenameE newPath oldPath],
         .error ("repairing worktrees: " ++ e))
      | .ok _ =>
        ([Event.mkdirParentE newPath, Event.osRenameE oldPath newPath,
          Event.repairWorktreesE] ++ cleanParentEvents cp oldPath,
         .ok newPath)

/-- `renameWorktree`: search a fresh listing by the new name (git already
reports the moved branch); move if found, else create fresh. -/
def renameWorktreeT (o : Oracle) (cp : Params) (pNew : String) :
    List Event × Except String (String × Bool) :=
  match o.listWorktrees with
  | .error e => ([Event.listWorktreesQ], .error e)
  | .ok wts =>
    match findWorktree wts pNew with
    | some wt =>
      match moveWorktreeT o cp pNew wt.path with
      | (t, .error e) => (Event.listWorktreesQ :: t, .error e)
      | (t, .ok path) => (Event.listWorktreesQ :: t, .ok (path, false))
    | none =>
      match findOrCreateWorktreeT o cp pNew with
      | (t, r) => (Event.listWorktreesQ :: t, r)

/-- `renameTmuxWindow`: all best-effort, so only events are produced. -/
def renameTmuxWindowT (o : Oracle) (cp : Params) (pOld pNew wtPath initCmd : String) :
    List Event :=
  match listWindowsSafeT o cp.sessionName with
  | (tl, none) => tl
  | (tl, some windows) =>
    match findWindow windows pOld with
    | some _ =>
      tl ++ [Event.renameWindowE cp.sessionName pOld pNew]
        ++ sendCdEvents o cp cp.sessionName pNew
    | none => tl ++ [Event.newWindowE cp.sessionName pNew wtPath initCmd]

/-- `Rename`: preconditions, branch rename with an armed compensation,
worktree move-or-create, file copy, best-effort tmux rename and connect.
The compensation (rename the branch back) fires on every hard failure
after the branch rename, appended at the point the deferred rollback
executes. -/
def renameOp (o : Oracle) (cp : Params) (pOld pNew : String) :
    List Event × Except String OperationResult :=
  if pOld == cp.defaultBranch then ([], .error "cannot rename default branch")
  else
    match o.branchExists pOld with
    | .error e =>
      ([Event.branchExistsQ pOld], .error ("checking branch \"" ++ pOld ++ "\": " ++ e))
    | .ok false =>
      ([Event.branchExistsQ pOld], .error ("branch \x27" ++ pOld ++ "\x27 does not exist"))
    | .ok true =>
      match o.branchExists pNew with
      | .error e =>
        ([Event.branchExistsQ pOld, Event.branchExistsQ pNew],
         .error ("checking branch \"" ++ pNew ++ "\": " ++ e))
      | .ok true =>
        ([Event.branchExistsQ pOld, Event.branchExistsQ pNew],
         .error ("branch \x27" ++ pNew ++ "\x27 already exists"))
      | .ok false =>
        let t3 := [Event.branchExistsQ pOld, Event.branchExistsQ pNew,
                   Event.renameBranchE pOld pNew]
        match o.renameBranch with
        | .error e => (t3, .error ("renaming branch: " ++ e))
        | .ok _ =>
          match renameWorktreeT o cp pNew with
          | (t4, .error e) =>
            (t3 ++ t4 ++ [Event.renameBranchE pNew pOld],
             .error ("renaming worktree: " ++ e))
          | (t4, .ok (wtPath, wtCreated)) =>
            let tc : List Event := if wtCreated then [Event.copyFilesE wtPath] else []
            let rc : Except String Unit := if wtCreated then o.copyFilesR else .ok ()
            match rc with
            | .error e => (t3 ++ t4 ++ tc ++ [Event.renameBranchE pNew pOld], .error e)
            | .ok _ =>
              let initCmd := buildInitCmd cp wtCreated
              let t6 := renameTmuxWindowT o cp pOld pNew wtPath initCmd
              let t7 := (connectT o cp.sessionName pNew).1
              (t3 ++ t4 ++ tc ++ t6 ++ t7,
               .ok ⟨opRenameT, pNew, wtPath, wtCreated⟩)

/-! ### Remove (`remove.go`) -/

/-- `RemoveCheck`. -/
structure RemoveCheck where
  branch : String
  hasBranch : Bool
  hasWorktree : Bool
  worktreePathC : String
  hasWindow : Bool
  isActive : Bool
  hasUncommitted : Bool
  isUnmerged : Bool
deriving DecidableEq

/-- `RemoveCheck.HasResources`. -/
def hasResources (c : RemoveCheck) : Bool :=
  c.hasBranch || c.hasWorktree || c.hasWindow

/-- `RemoveResult`. -/
structure RemoveResult where
  branchDeleted : Bool
  worktreeRemoved : Bool
  windowKilled : Bool
  sessionKilled : Bool
deriving DecidableEq

/-- `PrepareRemove`: validation and existence probes, then the uncommitted
and merged probes whose errors are swallowed. The probe calls return the
Go zero value `false` alongside every error (as the git client does), so
an errored uncommitted probe yields `HasUncommitted = false` and an
errored merged probe yields `IsUnmerged = !false = true`. -/
def prepareRemove (o : Oracle) (cp : Params) (branch : String) :
    List Event × Except String RemoveCheck :=
  match ValidateBranchName branch with
  | some m => ([], .error m)
  | none =>
    if branch == cp.defaultBranch then ([], .error "cannot remove default branch")
    else
      match o.branchExists branch with
      | .error e => ([Event.branchExistsQ branch], .error ("checking branch: " ++ e))
      | .ok hasBranch =>
        match o.listWorktrees with
        | .error e =>
          ([Event.branchExistsQ branch, Event.listWorktreesQ],
           .error ("listing worktrees: " ++ e))
        | .ok wts =>
          let wt := findWorktree wts branch
          let hasWorktree := wt.isSome
          let wtPath := match wt with | some w => w.path | none => ""
          let tl := (listWindowsSafeT o cp.sessionName).1
          let wsOpt := (listWindowsSafeT o cp.sessionName).2
          let win := findWindow (wsOpt.getD []) branch
          let hasWindow := win.isSome
          let isActive := match win with | some w => w.active | none => false
          let t0 := Event.branchExistsQ branch :: Event.listWorktreesQ :: tl
          if !(hasBranch || hasWorktree || hasWindow) then
            (t0, .error ("branch \x27" ++ branch ++ "\x27 does not exist"))
          else
            let tu : List Event :=
              if hasBranch && hasWorktree then [Event.hasUncommittedQ wtPath] else []
            let hasUncommitted : Bool :=
              if hasBranch && hasWorktree then
                match o.hasUncommitted with | .ok b => b | .error _ => false
              else false
            let tm : List Event :=
              if hasBranch then [Event.isMergedQ branch cp.defaultBranch] else []
            let isUnmerged : Bool :=
              if hasBranch then
                !(match o.isMerged with | .ok b => b | .error _ => false)
              else false
            (t0 ++ tu ++ tm,
             .ok ⟨branch, hasBranch, hasWorktree, wtPath, hasWindow, isActive,
                  hasUncommitted, isUnmerged⟩)

/-- The best-effort tail of `ExecuteRemove`: kill the session when it has
no windows left. Returns the events and whether the session was killed. -/
def sessionCleanup (o : Oracle) (cp : Params) : List Event × Bool :=
  let ok := match o.hasSession with | .ok b => b | .error _ => false
  if !ok then ([Event.hasSessionQ cp.sessionName], false)
  else
    let windows := match o.listWindows with | .ok ws => ws | .error _ => []
    if windows.isEmpty then
      ([Event.hasSessionQ cp.sessionName, Event.listWindowsQ cp.sessionName,
        Event.killSessionE cp.sessionName],
       match o.killSession with | .ok _ => true | .error _ => false)
    else
      ([Event.hasSessionQ cp.sessionName, Event.listWindowsQ cp.sessionName], false)

/-- The body of `ExecuteRemove` after the active-window switch: remove the
worktree, delete the branch addressed from the repo root, kill the window
last, then best-effort session cleanup. -/
def executeRemoveTail (o : Oracle) (cp : Params) (check : RemoveCheck) :
    List Event × Except String RemoveResult :=
  let t2 : List Event :=
    if check.hasWorktree then
      Event.removeWorktreeE check.worktreePathC :: cleanParentEvents cp check.worktreePathC
    else []
  match (if check.hasWorktree then o.removeWorktree else .ok ()) with
  | .error e =>
    ((if check.hasWorktree then [Event.removeWorktreeE check.worktreePathC] else []),
     .error ("removing worktree: " ++ e))
  | .ok _ =>
    let t3 : List Event :=
      if check.hasBranch then [Event.deleteBranchFromE cp.repoRoot check.branch] else []
    match (if check.hasBranch then o.deleteBranchFrom else .ok ()) with
    | .error e => (t2 ++ t3, .error ("deleting branch: " ++ e))
    | .ok _ =>
      let t4 : List Event :=
        if check.hasWindow then [Event.killWindowE cp.sessionName check.branch] else []
      match (if check.hasWindow then o.killWindow else .ok ()) with
      | .error e => (t2 ++ t3 ++ t4, .error ("killing window: " ++ e))
      | .ok _ =>
        let t5 := (sessionCleanup o cp).1
        let sk := (sessionCleanup o cp).2
        (t2 ++ t3 ++ t4 ++ t5,
         .ok ⟨check.hasBranch, check.hasWorktree, check.hasWindow, sk⟩)

/-- `ExecuteRemove`: switch away from the active window first, then the
tail above. Every exit path of the tail has the active-switch events of
the Go trace prepended. -/
def executeRemove (o : Oracle) (cp : Params) (check : RemoveCheck) :
    List Event × Except String RemoveResult :=
  let active : List Event × Except String Unit :=
    if check.isActive then
      match ensureTmux o cp cp.sessionName cp.defaultBranch cp.repoRoot "" with
      | (t, .error e) => (t, .error ("switching to default branch: " ++ e))
      | (t, .ok _) =>
        if o.isInsideTmux then
          (t ++ [Event.switchClientE cp.sessionName cp.defaultBranch], .ok ())
        else (t, .ok ())
    else ([], .ok ())
  match active with
  | (t1, .error e) => (t1, .error e)
  | (t1, .ok _) =>
    match executeRemoveTail o cp check with
    | (t, .error e) => (t1 ++ t, .error e)
    | (t, .ok r) => (t1 ++ t, .ok r)

/-! ## Replay semantics: existence probes after a trace -/

/-- Effect of one event on the set (list) of existing branch names. -/
def stepBranches (s : List String) (e : Event) : List String :=
  match e with
  | .addWorktreeNewBranchE _ br _ => s ++ [br]
  | .deleteBranchE br => s.filter (fun b => b != br)
  | .deleteBranchFromE _ br => s.filter (fun b => b != br)
  | .renameBranchE old new =>
    if s.contains old then (s.filter (fun b => b != old)) ++ [new] else s
  | _ => s

/-- Effect of one event on the set (list) of existing directory paths. -/
def stepDirs (s : List String) (e : Event) : List String :=
  match e with
  | .addWorktreeE p _ => s ++ [p]
  | .addWorktreeNewBranchE p _ _ => s ++ [p]
  | .removeWorktreeE p => s.filter (fun q => q != p)
  | .osRenameE src dst => s.map (fun q => if q == src then dst else q)
  | .osRemoveE p => s.filter (fun q => q != p)
  | _ => s

/-- Branch-existence snapshot after replaying a trace. -/
def branchesAfter (tr : List Event) (init : List String) : List String :=
  tr.foldl stepBranches init

/-- Directory snapshot after replaying a trace. -/
def dirsAfter (tr : List Event) (init : List String) : List String :=
  tr.foldl stepDirs init

/-! ## Event classification used by the ordering statements -/

/-- The three calls whose relative order the remove-ordering property is
about: worktree removal, branch deletion, window kill. -/
def isCoreRemovalEvent (e : Event) : Bool :=
  match e with
  | .removeWorktreeE _ => true
  | .deleteBranchFromE _ _ => true
  | .killWindowE _ _ => true
  | _ => false

/-- Events of the best-effort empty-session cleanup tail of
`ExecuteRemove`. -/
def isSessionCleanupEvent (e : Event) : Bool :=
  match e with
  | .hasSessionQ _ => true
  | .listWindowsQ _ => true
  | .killSessionE _ => true
  | _ => false

/-- Events that `ensureTmux`, `sendCd` and `connect` can produce. None of
them touches a branch or a worktree directory. -/
def isTmuxSetupEvent (e : Event) : Bool :=
  match e with
  | .hasSessionQ _ => true
  | .listWindowsQ _ => true
  | .newSessionE _ _ _ _ => true
  | .newWindowE _ _ _ _ => true
  | .paneCurrentCommandQ _ _ => true
  | .sendKeysE _ _ => true
  | .switchClientE _ _ => true
  | .attachSessionE _ _ => true
  | _ => false

/-! ## Concrete fixtures for the witness instantiations -/

/-- An all-succeeding oracle over empty stores. -/
def oracleStub : Oracle where
  branchExists := fun _ => .ok false
  listWorktrees := .ok []
  addWorktreeNewBranch := .ok ()
  addWorktree := .ok ()
  removeWorktree := .ok ()
  deleteBranch := .ok ()
  deleteBranchFrom := .ok ()
  renameBranch := .ok ()
  repairWorktrees := .ok ()
  copyFilesR := .ok ()
  mkdirParent := .ok ()
  osRename := .ok ()
  hasSession := .ok false
  listWindows := .ok []
  newSession := .ok ()
  newWindow := .ok ()
  killWindow := .ok ()
  killSession := .ok ()
  paneCurrentCommand := .ok "zsh"
  sendKeys := .ok ()
  switchClient := .ok ()
  attachSession := .ok ()
  hasUncommitted := .ok false
  isMerged := .ok true
  isInsideTmux := false

/-- Parameters mirroring the test defaults of the repository. -/
def cpStub : Params :=
  ⟨"/repo", ".worktrees", "main", "org/repo", [], [], ["bash", "zsh"], "/bin/zsh"⟩

/-- Oracle for the rename-rollback scenario: branch `old` exists, `new`
does not, the moved branch is reported at a non-canonical path, and
worktree repair fails. -/
def oracleRenameFail : Oracle :=
  { oracleStub with
    branchExists := fun b => .ok (b == "old")
    listWorktrees := .ok [⟨"/repo/.worktrees/old", "new", false, false⟩]
    repairWorktrees := .error "repair failed" }

/-- Oracle for the new-rollback scenario: only `main` exists and session
creation fails. -/
def oracleNewFail : Oracle :=
  { oracleStub with
    branchExists := fun b => .ok (b == "main")
    newSession := .error "tmux error" }

/-- Oracle for the probe-failure scenario of `PrepareRemove`: branch and
worktree exist, both probes fail. -/
def oracleProbeFail : Oracle :=
  { oracleStub with
    branchExists := fun _ => .ok true
    listWorktrees := .ok [⟨"/repo/.worktrees/feat", "feat", false, false⟩]
    hasUncommitted := .error "status failed"
    isMerged := .error "merge-base failed" }

/-- A fully populated `RemoveCheck` (worktree, branch and active window all
present). -/
def checkFull : RemoveCheck :=
  ⟨"feat", true, true, "/repo/.worktrees/feat", true, true, false, false⟩

/-! # Theorems -/

/-- C3 (counterexample): the claim states that a name which both ends with
`.lock` and contains `//` is rejected for the `.lock` suffix rule, the
spec listing the suffix rules before the `//` rule. On the code the `//`
rule is evaluated first: `a//b.lock` is rejected with the `//` reason, not
the suffix reason. -/
theorem validateBranchName_lock_slash_counterexample :
    ValidateBranchName "a//b.lock" = some "branch name contains \x27//\x27" ∧
      ValidateBranchName "a//b.lock" ≠ some "branch name must not end with \x27.lock\x27" := by
  constructor
  · rfl
  · decide

/-- C3 (amended): `ValidateBranchName` applies exactly the spec rules with
first match winning and each rule its distinct reason, in the spec order
amended in one place: the `//` rule is evaluated before the `.lock` suffix
rule. Every string matching no rule is accepted (`none`). -/
theorem validateBranchName_first_match (n : String) :
    ValidateBranchName n = specValidateAmended n := rfl

/-- C7: each of the four defined Status values marshals to its documented
wire string and unmarshals back to itself, and unmarshaling any payload
whose quoted content is not among the four serialized names returns the
`unknown status` error. -/
theorem status_json_roundtrip :
    (statusMarshalJSON StatusOK = some "\"ok\"" ∧
      statusUnmarshalJSON "\"ok\"" = .ok StatusOK) ∧
    (statusMarshalJSON StatusWorktreeMissing = some "\"worktree_missing\"" ∧
      statusUnmarshalJSON "\"worktree_missing\"" = .ok StatusWorktreeMissing) ∧
    (statusMarshalJSON StatusOrphanedWindow = some "\"orphaned_window\"" ∧
      statusUnmarshalJSON "\"orphaned_window\"" = .ok StatusOrphanedWindow) ∧
    (statusMarshalJSON StatusOrphanedWorktree = some "\"orphaned_worktree\"" ∧
      statusUnmarshalJSON "\"orphaned_worktree\"" = .ok StatusOrphanedWorktree) ∧
    (∀ data : String,
      trimQuotes data ∉ statusTable.map (fun m => m.name) →
      statusUnmarshalJSON data = .error ("unknown status: " ++ trimQuotes data)) := by
  refine ⟨⟨rfl, rfl⟩, ⟨rfl, rfl⟩, ⟨rfl, rfl⟩, ⟨rfl, rfl⟩, ?_⟩
  intro data h
  simp only [statusTable, List.map, List.mem_cons, List.not_mem_nil, or_false,
    not_or] at h
  obtain ⟨h1, h2, h3, h4⟩ := h
  simp [statusUnmarshalJSON, statusTable, List.findIdx?, Ne.symm h1, Ne.symm h2,
    Ne.symm h3, Ne.symm h4]

/-- C7 witness: the round-trip theorem applied at the concrete payload
`"invalid"`. -/
theorem status_json_roundtrip_witness :
    statusUnmarshalJSON "\"invalid\"" = .error ("unknown status: " ++ trimQuotes "\"invalid\"") :=
  status_json_roundtrip.2.2.2.2 "\"invalid\"" (by decide)

/-- C10 (counterexample): the claim quantifies over every Status value
outside the four constants, but for a negative value the guard
`int(s) < len(statusTable)` passes and the Go array index panics, so
`String()` does not produce `"unknown"` there. -/
theorem status_negative_counterexample :
    statusMetaGo (-1) = none ∧ statusString (-1) ≠ some "unknown" ∧
      statusMarshalJSON (-1) ≠ some "\"unknown\"" := by
  refine ⟨rfl, ?_, ?_⟩ <;> decide

/-- C10 (amended): for every Status value past the end of the table,
`String()` and `MarshalJSON` produce `unknown` without an error, and
unmarshaling that output fails, so the marshal-unmarshal round-trip holds
only for the four defined values; a negative value instead panics on the
table index (modelled as `none`). -/
theorem status_out_of_range :
    (∀ s : Int, (statusTable.length : Int) ≤ s →
      statusString s = some "unknown" ∧
      statusMarshalJSON s = some "\"unknown\"" ∧
      statusUnmarshalJSON "\"unknown\"" = .error ("unknown status: unknown")) ∧
    (∀ s : Int, s < 0 → statusMetaGo s = none) := by
  constructor
  · intro s hs
    have hlt : ¬(s < (statusTable.length : Int)) := not_lt.mpr hs
    refine ⟨?_, ?_, rfl⟩
    · simp [statusString, statusMetaGo, hlt]
    · simp [statusMarshalJSON, statusString, statusMetaGo, hlt]
  · intro s hs
    have hlen : (statusTable.length : Int) = 4 := rfl
    have h1 : s < (statusTable.length : Int) := by rw [hlen]; omega
    have h2 : ¬(0 ≤ s) := by omega
    simp [statusMetaGo, h1, h2]

/-- C10 witness: the amended theorem applied at `Status(99)` and
`Status(-1)`. -/
theorem status_out_of_range_witness :
    (statusString 99 = some "unknown" ∧
      statusMarshalJSON 99 = some "\"unknown\"" ∧
      statusUnmarshalJSON "\"unknown\"" = .error ("unknown status: unknown")) ∧
    statusMetaGo (-1) = none :=
  ⟨status_out_of_range.1 99 (by decide), status_out_of_range.2 (-1) (by decide)⟩

/-- Unfolding: end of input inside quotes is a parse error. -/
theorem parseSh_true_nil : parseSh true [] = none := by
  rw [parseSh.eq_def]

/-- Unfolding: end of input outside quotes parses to the empty word. -/
theorem parseSh_false_nil : parseSh false [] = some [] := by
  rw [parseSh.eq_def]

/-- Unfolding: a quote inside quotes closes the quoted segment. -/
theorem parseSh_true_squote (rest : List Char) :
    parseSh true (squote :: rest) = parseSh false rest := by
  rw [parseSh.eq_def]; simp

/-- Unfolding: any other character inside quotes is literal. -/
theorem parseSh_true_other (c : Char) (rest : List Char) (h : ¬(c = squote)) :
    parseSh true (c :: rest) = (parseSh true rest).map (fun t => c :: t) := by
  rw [parseSh.eq_def]; simp [h]

/-- Unfolding: a quote outside quotes opens a quoted segment. -/
theorem parseSh_false_squote (rest : List Char) :
    parseSh false (squote :: rest) = parseSh true rest := by
  rw [parseSh.eq_def]; simp

/-- Unfolding: a backslash outside quotes escapes the next character. -/
theorem parseSh_false_bslash (d : Char) (rest : List Char) :
    parseSh false (bslash :: d :: rest) = (parseSh false rest).map (fun t => d :: t) := by
  rw [parseSh.eq_def]
  have h : ¬(bslash = squote) := by decide
  simp [h]

/-- Parsing a quoted body: the escaped body followed by a closing quote
parses to the original characters prepended to whatever the continuation
parses to. -/
theorem parseSh_quoted_body (cs : List Char) :
    ∀ k : List Char, parseSh true (shQuoteChars cs ++ (squote :: k))
      = (parseSh false k).map (fun t => cs ++ t) := by
  induction cs with
  | nil =>
    intro k
    simp only [shQuoteChars, List.nil_append, parseSh_true_squote]
    cases parseSh false k <;> simp
  | cons c rest ih =>
    intro k
    by_cases hc : c = squote
    · subst hc
      simp only [shQuoteChars, eq_self_iff_true, if_true, List.cons_append,
        parseSh_true_squote, parseSh_false_bslash, parseSh_false_squote]
      rw [ih k]
      cases parseSh false k <;> simp
    · simp only [shQuoteChars, if_neg hc, List.cons_append, parseSh_true_other c _ hc]
      rw [ih k]
      cases parseSh false k <;> simp

/-- C8: shell-quoting round-trip — parsing the output of `shellQuote`
under POSIX word-parsing rules yields exactly the original string, single
quotes included. -/
theorem shellQuote_roundtrip (s : String) : shUnquote (shellQuote s) = some s := by
  obtain ⟨cs⟩ := s
  show (parseSh false (squote :: (shQuoteChars cs ++ [squote]))).map String.mk
    = some (String.mk cs)
  rw [parseSh_false_squote]
  have h1 : (squote :: ([] : List Char)) = [squote] := rfl
  rw [← h1, parseSh_quoted_body cs [], parseSh_false_nil]
  simp

/-- The worktree loop of `CollectState` appends the entries and the seen
names of the non-detached worktrees, in order. -/
theorem collect_wt_fold (branches : List String) (windows : List Window)
    (defaultBranch : String) :
    ∀ (wts : List Worktree) (acc : List State × List String),
      wts.foldl
        (fun (acc : List State × List String) wt =>
          if wt.detached then acc
          else (acc.1 ++ [mkWorktreeState wt branches windows defaultBranch],
                acc.2 ++ [wt.branch]))
        acc
      = (acc.1 ++ (wts.filter (fun wt => !wt.detached)).map
            (fun wt => mkWorktreeState wt branches windows defaultBranch),
         acc.2 ++ (wts.filter (fun wt => !wt.detached)).map (fun wt => wt.branch)) := by
  intro wts
  induction wts with
  | nil => intro acc; simp
  | cons wt rest ih =>
    intro acc
    by_cases hd : wt.detached
    · simp [List.filter_cons, hd, ih]
    · simp [List.filter_cons, hd, ih, List.append_assoc]

/-- The window loop of `CollectState` appends the entries of the windows
whose name was not seen, in order. -/
theorem collect_win_fold (branches : List String) (seen : List String) :
    ∀ (wins : List Window) (states : List State),
      wins.foldl
        (fun states w =>
          if seen.contains w.name then states
          else states ++ [mkWindowState w branches])
        states
      = states ++ (wins.filter (fun w => !(seen.contains w.name))).map
          (fun w => mkWindowState w branches) := by
  intro wins
  induction wins with
  | nil => intro states; simp
  | cons w rest ih =>
    intro states
    simp only [List.filter_cons] at ih ⊢
    by_cases hc : w.name ∈ seen
    · simp only [List.foldl_cons]
      rw [if_pos (by simpa using hc)]
      rw [ih]
      simp [hc]
    · simp only [List.foldl_cons]
      rw [if_neg (by simpa using hc)]
      rw [ih]
      simp [hc, List.append_assoc]

/-- C6: `CollectState` computes exactly the spec description — one entry
per non-detached worktree in store order (status OK for main or a known
branch, orphaned-worktree otherwise), then one entry per window unmatched
by a non-detached worktree in store order (worktree-missing for a known
branch, orphaned-window otherwise); detached worktrees and branch-only
names contribute nothing. -/
theorem collectState_spec (worktrees : List Worktree) (branches : List String)
    (windows : List Window) (defaultBranch : String) :
    collectState worktrees branches windows defaultBranch
      = collectStateSpec worktrees branches windows defaultBranch := by
  unfold collectState collectStateSpec
  rw [collect_wt_fold branches windows defaultBranch worktrees ([], [])]
  rw [collect_win_fold branches
    (([] : List String) ++ (worktrees.filter (fun wt => !wt.detached)).map
      (fun wt => wt.branch)) windows]
  simp

/-- C1: rename rollback atomicity. When the renamed branch is found at a
(non-canonical) worktree path, the physical move succeeds and the
worktree-repair call fails, `Rename` returns an error and the trace is
exactly: the two existence probes, the branch rename, the listing, the
parent mkdir, the forward move, the failing repair, the compensating move
back, and the compensating branch rename back. Replaying that trace over
any pre-state containing `old` but not `new` (and without the canonical
new path) reproduces the pre-state for both branches and directories. -/
theorem rename_rollback (o : Oracle) (cp : Params) (pOld pNew : String)
    (wts : List Worktree) (wt : Worktree) (e : String)
    (hdef : pOld ≠ cp.defaultBranch)
    (hold : o.branchExists pOld = .ok true)
    (hnew : o.branchExists pNew = .ok false)
    (hrb : o.renameBranch = .ok ())
    (hlw : o.listWorktrees = .ok wts)
    (hfind : findWorktree wts pNew = some wt)
    (hmk : o.mkdirParent = .ok ())
    (hmv : o.osRename = .ok ())
    (hrep : o.repairWorktrees = .error e) :
    renameOp o cp pOld pNew =
      ([.branchExistsQ pOld, .branchExistsQ pNew, .renameBranchE pOld pNew,
        .listWorktreesQ, .mkdirParentE (worktreePath cp pNew),
        .osRenameE wt.path (worktreePath cp pNew), .repairWorktreesE,
        .osRenameE (worktreePath cp pNew) wt.path, .renameBranchE pNew pOld],
       .error ("renaming worktree: " ++ ("repairing worktrees: " ++ e))) ∧
    (∀ initB : List String, pOld ∈ initB → pNew ∉ initB →
      ∀ b, b ∈ branchesAfter (renameOp o cp pOld pNew).1 initB ↔ b ∈ initB) ∧
    (∀ initD : List String, worktreePath cp pNew ∉ initD →
      dirsAfter (renameOp o cp pOld pNew).1 initD = initD) := by
  have hdb : (pOld == cp.defaultBranch) = false := by simpa using hdef
  have htr : renameOp o cp pOld pNew =
      ([.branchExistsQ pOld, .branchExistsQ pNew, .renameBranchE pOld pNew,
        .listWorktreesQ, .mkdirParentE (worktreePath cp pNew),
        .osRenameE wt.path (worktreePath cp pNew), .repairWorktreesE,
        .osRenameE (worktreePath cp pNew) wt.path, .renameBranchE pNew pOld],
       .error ("renaming worktree: " ++ ("repairing worktrees: " ++ e))) := by
    simp [renameOp, hdb, hold, hnew, hrb, renameWorktreeT, hlw, hfind,
      moveWorktreeT, hmk, hmv, hrep]
  refine ⟨htr, ?_, ?_⟩
  · intro initB hpo hpn b
    rw [htr]
    simp only [branchesAfter, List.foldl_cons, List.foldl_nil, stepBranches]
    have h1 : initB.contains pOld = true := List.elem_iff.mpr hpo
    simp only [h1, if_true]
    have h2 : ((initB.filter (fun x => x != pOld)) ++ [pNew]).contains pNew = true := by
      simp
    simp only [h2, if_true]
    simp only [List.filter_append, List.filter_cons, List.filter_nil, bne_self_eq_false,
      Bool.false_eq_true, if_false]
    by_cases hb : b = pOld
    · subst hb
      simp [hpo]
    · by_cases hbn : b = pNew
      · subst hbn
        simp [hpn, hb]
      · simp [List.mem_filter, hb, hbn]
  · intro initD hnp
    rw [htr]
    simp only [dirsAfter, List.foldl_cons, List.foldl_nil, stepDirs]
    rw [List.map_map]
    rw [List.map_congr_left, List.map_id]
    intro q hq
    by_cases hqw : q = wt.path
    · simp [hqw]
    · have : ¬(q = worktreePath cp pNew) := fun h => hnp (h ▸ hq)
      simp [Function.comp, hqw, this]

/-- C1 witness: the rollback theorem applied to the repair-failure oracle
with `old` renamed to `new` and the worktree reported at the old path. -/
theorem rename_rollback_witness :
    renameOp oracleRenameFail cpStub "old" "new" =
      ([.branchExistsQ "old", .branchExistsQ "new", .renameBranchE "old" "new",
        .listWorktreesQ, .mkdirParentE (worktreePath cpStub "new"),
        .osRenameE "/repo/.worktrees/old" (worktreePath cpStub "new"),
        .repairWorktreesE,
        .osRenameE (worktreePath cpStub "new") "/repo/.worktrees/old",
        .renameBranchE "new" "old"],
       .error ("renaming worktree: " ++ ("repairing worktrees: " ++ "repair failed"))) ∧
    (∀ initB : List String, "old" ∈ initB → "new" ∉ initB →
      ∀ b, b ∈ branchesAfter (renameOp oracleRenameFail cpStub "old" "new").1 initB
        ↔ b ∈ initB) ∧
    (∀ initD : List String, worktreePath cpStub "new" ∉ initD →
      dirsAfter (renameOp oracleRenameFail cpStub "old" "new").1 initD = initD) :=
  rename_rollback oracleRenameFail cpStub "old" "new"
    [⟨"/repo/.worktrees/old", "new", false, false⟩]
    ⟨"/repo/.worktrees/old", "new", false, false⟩ "repair failed"
    (by decide) rfl rfl rfl rfl rfl rfl rfl rfl

/-- Every event `sendCd` produces is a tmux-setup event. -/
theorem sendCd_events_tmux (o : Oracle) (cp : Params) (s w : String) :
    ∀ ev ∈ sendCdEvents o cp s w, isTmuxSetupEvent ev = true := by
  intro ev hev
  simp only [sendCdEvents, List.mem_cons] at hev
  rcases hev with rfl | h
  · rfl
  · split at h
    · simp at h
    · split at h
      · simp at h; subst h; rfl
      · simp at h

/-- Every event `ensureTmux` produces is a tmux-setup event (in particular
none of them removes a worktree, deletes a branch, or kills a window). -/
theorem ensureTmux_events_tmux (o : Oracle) (cp : Params) (s w d i : String) :
    ∀ ev ∈ (ensureTmux o cp s w d i).1, isTmuxSetupEvent ev = true := by
  intro ev hev
  unfold ensureTmux at hev
  split at hev
  · simp at hev; subst hev; rfl
  · simp at hev; rcases hev with rfl | rfl <;> rfl
  · split at hev
    · simp at hev; rcases hev with rfl | rfl <;> rfl
    · split at hev
      · simp at hev
        rcases hev with rfl | rfl | h
        · rfl
        · rfl
        · exact sendCd_events_tmux o cp s w ev h
      · simp at hev; rcases hev with rfl | rfl | rfl <;> rfl

/-- A tmux-setup event changes neither the branch set nor the directory
set of the replay semantics. -/
theorem tmux_event_neutral (ev : Event) (h : isTmuxSetupEvent ev = true) :
    (∀ s, stepBranches s ev = s) ∧ (∀ s, stepDirs s ev = s) := by
  cases ev <;> simp_all [isTmuxSetupEvent, stepBranches, stepDirs]

/-- Replaying a trace of tmux-setup events is the identity. -/
theorem replay_neutral_trace : ∀ tr : List Event,
    (∀ ev ∈ tr, isTmuxSetupEvent ev = true) →
    (∀ init, branchesAfter tr init = init) ∧ (∀ init, dirsAfter tr init = init) := by
  intro tr
  induction tr with
  | nil => intro _; simp [branchesAfter, dirsAfter]
  | cons ev rest ih =>
    intro h
    have h1 := tmux_event_neutral ev (h ev (by simp))
    have ih2 := ih (fun e he => h e (by simp [he]))
    constructor <;> intro init
    · show branchesAfter rest (stepBranches init ev) = init
      rw [h1.1 init]; exact ih2.1 init
    · show dirsAfter rest (stepDirs init ev) = init
      rw [h1.2 init]; exact ih2.2 init

/-- A tmux-setup event is not one of the three core removal calls. -/
theorem tmuxSetup_not_core (ev : Event) (h : isTmuxSetupEvent ev = true) :
    isCoreRemovalEvent ev = false := by
  cases ev <;> simp_all [isTmuxSetupEvent, isCoreRemovalEvent]

/-- A session-cleanup event is not one of the three core removal calls. -/
theorem cleanup_not_core (ev : Event) (h : isSessionCleanupEvent ev = true) :
    isCoreRemovalEvent ev = false := by
  cases ev <;> simp_all [isSessionCleanupEvent, isCoreRemovalEvent]

/-- A list of events none of which is core filters to the empty list. -/
theorem filter_core_nil (l : List Event)
    (h : ∀ ev ∈ l, isCoreRemovalEvent ev = false) :
    l.filter isCoreRemovalEvent = [] := by
  rw [List.filter_eq_nil_iff]
  intro a ha
  simp [h a ha]

/-- Every event of the best-effort session cleanup is a cleanup event. -/
theorem sessionCleanup_events (o : Oracle) (cp : Params) :
    ∀ ev ∈ (sessionCleanup o cp).1, isSessionCleanupEvent ev = true := by
  intro ev hev
  unfold sessionCleanup at hev
  rcases ho : o.hasSession with e | b <;> rw [ho] at hev
  · simp at hev; subst hev; rfl
  · cases b
    · simp at hev; subst hev; rfl
    · rcases hl : o.listWindows with e2 | ws <;> rw [hl] at hev
      · simp at hev; rcases hev with rfl | rfl | rfl <;> rfl
      · by_cases hw : ws.isEmpty <;> simp [hw] at hev
        · rcases hev with rfl | rfl | rfl <;> rfl
        · rcases hev with rfl | rfl <;> rfl

/-- The parent-cleanup events contain no core call and no window kill. -/
theorem cleanParent_events (cp : Params) (p : String) :
    ∀ ev ∈ cleanParentEvents cp p, isCoreRemovalEvent ev = false := by
  intro ev hev
  unfold cleanParentEvents at hev
  split at hev
  · simp at hev; subst hev; rfl
  · simp at hev

/-- Splitting an append at an element absent from the left part: the split
point lies in the right part. -/
theorem append_eq_cons_split {α : Type} (a : α) :
    ∀ (A B pre post : List α), a ∉ A → A ++ B = pre ++ a :: post →
      ∃ pre2, B = pre2 ++ a :: post := by
  intro A
  induction A with
  | nil =>
    intro B pre post _ h
    exact ⟨pre, by simpa using h⟩
  | cons x A ih =>
    intro B pre post hna h
    cases pre with
    | nil =>
      simp only [List.cons_append, List.nil_append, List.cons.injEq] at h
      obtain ⟨rfl, -⟩ := h
      exact absurd (List.mem_cons_self _ _) hna
    | cons y pre =>
      simp only [List.cons_append, List.cons.injEq] at h
      obtain ⟨rfl, h2⟩ := h
      exact ih B pre post (fun hm => hna (List.mem_cons_of_mem _ hm)) h2

/-- Splitting a list at its unique occurrence of an element determines the
suffix. -/
theorem cons_split_unique {α : Type} (a : α) :
    ∀ (D C pre post : List α), a ∉ D → a ∉ C → D ++ a :: C = pre ++ a :: post →
      post = C := by
  intro D
  induction D with
  | nil =>
    intro C pre post _ hnc h
    cases pre with
    | nil =>
      simp only [List.nil_append, List.cons.injEq] at h
      exact h.2.symm
    | cons y pre =>
      simp only [List.nil_append, List.cons_append, List.cons.injEq] at h
      obtain ⟨rfl, h2⟩ := h
      exact absurd (h2 ▸ List.mem_append_right pre (List.mem_cons_self _ _)) hnc
  | cons x D ih =>
    intro C pre post hnd hnc h
    cases pre with
    | nil =>
      simp only [List.cons_append, List.nil_append, List.cons.injEq] at h
      obtain ⟨rfl, -⟩ := h
      exact absurd (List.mem_cons_self _ _) hnd
    | cons y pre =>
      simp only [List.cons_append, List.cons.injEq] at h
      obtain ⟨rfl, h2⟩ := h
      exact ih C pre post (fun hm => hnd (List.mem_cons_of_mem _ hm)) hnc h2

/-- Ordering properties of the tail of `ExecuteRemove` when worktree,
branch and window are all present: the core calls happen in the order
worktree-removal, branch-deletion, window-kill (a prefix of that sequence
when an earlier call fails), and everything after the window kill is
best-effort session cleanup. -/
theorem executeRemoveTail_props (o : Oracle) (cp : Params) (check : RemoveCheck)
    (hw : check.hasWorktree = true) (hb : check.hasBranch = true)
    (hwin : check.hasWindow = true) :
    (∃ n, (executeRemoveTail o cp check).1.filter isCoreRemovalEvent
        = ([Event.removeWorktreeE check.worktreePathC,
            Event.deleteBranchFromE cp.repoRoot check.branch,
            Event.killWindowE cp.sessionName check.branch]).take n) ∧
    (∀ pre post, (executeRemoveTail o cp check).1
        = pre ++ Event.killWindowE cp.sessionName check.branch :: post →
        ∀ ev ∈ post, isSessionCleanupEvent ev = true) := by
  have hCP := cleanParent_events cp check.worktreePathC
  have hCPfil : (cleanParentEvents cp check.worktreePathC).filter isCoreRemovalEvent
      = [] := filter_core_nil _ hCP
  have hkCP : Event.killWindowE cp.sessionName check.branch
      ∉ cleanParentEvents cp check.worktreePathC := by
    intro hm
    have h2 := hCP _ hm
    simp [isCoreRemovalEvent] at h2
  have ht5 := sessionCleanup_events o cp
  have ht5fil : (sessionCleanup o cp).1.filter isCoreRemovalEvent = [] :=
    filter_core_nil _ (fun ev h => cleanup_not_core ev (ht5 ev h))
  have hk5 : Event.killWindowE cp.sessionName check.branch ∉ (sessionCleanup o cp).1 := by
    intro hm
    have h2 := ht5 _ hm
    simp [isSessionCleanupEvent] at h2
  rcases hrw : o.removeWorktree with e | u
  · have htr : executeRemoveTail o cp check
        = ([Event.removeWorktreeE check.worktreePathC],
           .error ("removing worktree: " ++ e)) := by
      simp [executeRemoveTail, hw, hb, hwin, hrw]
    rw [htr]
    refine ⟨⟨1, by simp [isCoreRemovalEvent]⟩, ?_⟩
    intro pre post h
    exfalso
    have hk := List.mem_append_right pre
      (List.mem_cons_self (Event.killWindowE cp.sessionName check.branch) post)
    rw [← h] at hk
    simp at hk
  · rcases hdb : o.deleteBranchFrom with e | u2
    · have htr : executeRemoveTail o cp check
          = (Event.removeWorktreeE check.worktreePathC ::
              (cleanParentEvents cp check.worktreePathC ++
                [Event.deleteBranchFromE cp.repoRoot check.branch]),
             .error ("deleting branch: " ++ e)) := by
        simp [executeRemoveTail, hw, hb, hwin, hrw, hdb]
      rw [htr]
      refine ⟨⟨2, by simp [List.filter_append, hCPfil, isCoreRemovalEvent]⟩, ?_⟩
      intro pre post h
      exfalso
      have hk := List.mem_append_right pre
        (List.mem_cons_self (Event.killWindowE cp.sessionName check.branch) post)
      rw [← h] at hk
      simp at hk
      exact hkCP hk
    · rcases hkw : o.killWindow with e | u3
      · have htr : executeRemoveTail o cp check
            = (Event.removeWorktreeE check.worktreePathC ::
                (cleanParentEvents cp check.worktreePathC ++
                  [Event.deleteBranchFromE cp.repoRoot check.branch,
                   Event.killWindowE cp.sessionName check.branch]),
               .error ("killing window: " ++ e)) := by
          simp [executeRemoveTail, hw, hb, hwin, hrw, hdb, hkw]
        rw [htr]
        refine ⟨⟨3, by simp [List.filter_append, hCPfil, isCoreRemovalEvent]⟩, ?_⟩
        intro pre post h
        have h2 : (Event.removeWorktreeE check.worktreePathC ::
              (cleanParentEvents cp check.worktreePathC ++
                [Event.deleteBranchFromE cp.repoRoot check.branch]))
            ++ Event.killWindowE cp.sessionName check.branch :: ([] : List Event)
            = pre ++ Event.killWindowE cp.sessionName check.branch :: post := by
          simpa using h
        have hpost := cons_split_unique _ _ _ _ _
          (by
            intro hm
            simp at hm
            exact hkCP hm)
          (List.not_mem_nil _) h2
        subst hpost
        intro ev hev
        exact absurd hev (List.not_mem_nil ev)
      · have htr : (executeRemoveTail o cp check).1
            = Event.removeWorktreeE check.worktreePathC ::
                (cleanParentEvents cp check.worktreePathC ++
                  (Event.deleteBranchFromE cp.repoRoot check.branch ::
                    Event.killWindowE cp.sessionName check.branch ::
                      (sessionCleanup o cp).1)) := by
          simp [executeRemoveTail, hw, hb, hwin, hrw, hdb, hkw]
        rw [htr]
        refine ⟨⟨3, by simp [List.filter_append, hCPfil, ht5fil, isCoreRemovalEvent]⟩, ?_⟩
        intro pre post h
        have h2 : (Event.removeWorktreeE check.worktreePathC ::
              (cleanParentEvents cp check.worktreePathC ++
                [Event.deleteBranchFromE cp.repoRoot check.branch]))
            ++ Event.killWindowE cp.sessionName check.branch :: (sessionCleanup o cp).1
            = pre ++ Event.killWindowE cp.sessionName check.branch :: post := by
          simpa using h
        have hpost := cons_split_unique _ _ _ _ _
          (by
            intro hm
            simp at hm
            exact hkCP hm)
          hk5 h2
        subst hpost
        exact fun ev hev => ht5 ev hev

/-- C2: remove ordering. With worktree, branch and window all present
(window active or not), the core calls of `ExecuteRemove` appear in the
trace in the order worktree-removal, then branch-deletion, then
window-kill (a prefix of that sequence when a call fails), and every event
after the window kill belongs to the best-effort empty-session cleanup —
the window kill is the last mutating step before it. -/
theorem executeRemove_order (o : Oracle) (cp : Params) (check : RemoveCheck)
    (hw : check.hasWorktree = true) (hb : check.hasBranch = true)
    (hwin : check.hasWindow = true) :
    (∃ n, (executeRemove o cp check).1.filter isCoreRemovalEvent
        = ([Event.removeWorktreeE check.worktreePathC,
            Event.deleteBranchFromE cp.repoRoot check.branch,
            Event.killWindowE cp.sessionName check.branch]).take n) ∧
    (∀ pre post, (executeRemove o cp check).1
        = pre ++ Event.killWindowE cp.sessionName check.branch :: post →
        ∀ ev ∈ post, isSessionCleanupEvent ev = true) := by
  obtain ⟨hfilter, hsplit⟩ := executeRemoveTail_props o cp check hw hb hwin
  have main : ∀ t1 : List Event, (∀ ev ∈ t1, isTmuxSetupEvent ev = true) →
      (∃ n, ((t1 ++ (executeRemoveTail o cp check).1).filter isCoreRemovalEvent
          = ([Event.removeWorktreeE check.worktreePathC,
              Event.deleteBranchFromE cp.repoRoot check.branch,
              Event.killWindowE cp.sessionName check.branch]).take n)) ∧
      (∀ pre post, t1 ++ (executeRemoveTail o cp check).1
          = pre ++ Event.killWindowE cp.sessionName check.branch :: post →
          ∀ ev ∈ post, isSessionCleanupEvent ev = true) := by
    intro t1 ht1
    have ht1fil : t1.filter isCoreRemovalEvent = [] :=
      filter_core_nil _ (fun ev h => tmuxSetup_not_core ev (ht1 ev h))
    have hk1 : Event.killWindowE cp.sessionName check.branch ∉ t1 := by
      intro hm
      have h2 := ht1 _ hm
      simp [isTmuxSetupEvent] at h2
    constructor
    · obtain ⟨n, hn⟩ := hfilter
      exact ⟨n, by rw [List.filter_append, ht1fil, List.nil_append, hn]⟩
    · intro pre post h
      obtain ⟨pre2, h2⟩ := append_eq_cons_split _ t1 _ pre post hk1 h
      exact hsplit pre2 post h2
  unfold executeRemove
  by_cases hact : check.isActive = true
  · simp only [hact, if_true]
    rcases het : ensureTmux o cp cp.sessionName cp.defaultBranch cp.repoRoot ""
      with ⟨tE, rE⟩
    have htE : ∀ ev ∈ tE, isTmuxSetupEvent ev = true := by
      have h2 := ensureTmux_events_tmux o cp cp.sessionName cp.defaultBranch cp.repoRoot ""
      rw [het] at h2
      exact h2
    rcases rE with e | u
    · constructor
      · exact ⟨0, filter_core_nil _ (fun ev h => tmuxSetup_not_core ev (htE ev h))⟩
      · intro pre post h
        exfalso
        have hk := List.mem_append_right pre
          (List.mem_cons_self (Event.killWindowE cp.sessionName check.branch) post)
        rw [← h] at hk
        simp only [] at hk
        have h2 := htE _ (by simpa using hk)
        simp [isTmuxSetupEvent] at h2
    · by_cases hin : o.isInsideTmux = true
      · simp only [hin, if_true]
        rcases htl : executeRemoveTail o cp check with ⟨tl, rl⟩
        have hm := main (tE ++ [Event.switchClientE cp.sessionName cp.defaultBranch])
          (by
            intro ev hev
            rcases List.mem_append.mp hev with h | h
            · exact htE ev h
            · simp at h; subst h; rfl)
        rw [htl] at hm
        rcases rl with e | r <;>
          simpa [List.append_assoc] using hm
      · simp only [hin, if_false]
        rcases htl : executeRemoveTail o cp check with ⟨tl, rl⟩
        have hm := main tE htE
        rw [htl] at hm
        rcases rl with e | r <;> simpa using hm
  · simp only [hact, if_false]
    rcases htl : executeRemoveTail o cp check with ⟨tl, rl⟩
    have hm := main [] (by intro ev hev; exact absurd hev (List.not_mem_nil ev))
    rw [htl] at hm
    rcases rl with e | r <;> simpa using hm

/-- C2 witness: the ordering theorem applied to the all-succeeding oracle
and the fully populated check. -/
theorem executeRemove_order_witness :
    (∃ n, (executeRemove oracleStub cpStub checkFull).1.filter isCoreRemovalEvent
        = ([Event.removeWorktreeE checkFull.worktreePathC,
            Event.deleteBranchFromE cpStub.repoRoot checkFull.branch,
            Event.killWindowE cpStub.sessionName checkFull.branch]).take n) ∧
    (∀ pre post, (executeRemove oracleStub cpStub checkFull).1
        = pre ++ Event.killWindowE cpStub.sessionName checkFull.branch :: post →
        ∀ ev ∈ post, isSessionCleanupEvent ev = true) :=
  executeRemove_order oracleStub cpStub checkFull rfl rfl rfl

/-- C4: new rollback. If the branch did not exist, the combined
branch+worktree creation succeeded and then either the file copy or the
session/window step fails, `New` returns an error, the trace ends with the
best-effort worktree removal followed by the branch deletion (issued in
that order, unconditionally on each other), and replaying the trace over
any pre-state leaves neither the branch nor the worktree directory. -/
theorem new_rollback (o : Oracle) (cp : Params) (p : NewParams)
    (hv : ValidateBranchName p.branch = none)
    (hvb : (if p.base != "" then ValidateBranchName p.base else none) = none)
    (hbe : o.branchExists p.branch = .ok false)
    (hbase : o.branchExists (if p.base == "" then cp.defaultBranch else p.base) = .ok true)
    (hmk : o.mkdirParent = .ok ())
    (hadd : o.addWorktreeNewBranch = .ok ())
    (hfail : (∃ ce, o.copyFilesR = .error ce) ∨
      (o.copyFilesR = .ok () ∧ ∃ te, (ensureTmux o cp cp.sessionName p.branch
        (worktreePath cp p.branch) (buildInitCmd cp true)).2 = .error te)) :
    (∃ msg, (newOp o cp p).2 = .error msg) ∧
    (∃ pre, (newOp o cp p).1
      = pre ++ [.removeWorktreeE (worktreePath cp p.branch), .deleteBranchE p.branch]) ∧
    (∀ initB, p.branch ∉ branchesAfter (newOp o cp p).1 initB) ∧
    (∀ initD, worktreePath cp p.branch ∉ dirsAfter (newOp o cp p).1 initD) := by
  have hvb2 : (if p.base = "" then none else ValidateBranchName p.base)
      = (none : Option String) := by
    by_cases hb : p.base = ""
    · simp [hb]
    · simpa [hb] using hvb
  have hbase2 : o.branchExists (if p.base = "" then cp.defaultBranch else p.base)
      = .ok true := by
    by_cases hb : p.base = ""
    · simpa [hb] using hbase
    · simpa [hb] using hbase
  rcases hfail with ⟨ce, hce⟩ | ⟨hcopy, te, hte⟩
  · have htr : newOp o cp p =
        ([.branchExistsQ p.branch,
          .branchExistsQ (if p.base == "" then cp.defaultBranch else p.base),
          .mkdirParentE (worktreePath cp p.branch),
          .addWorktreeNewBranchE (worktreePath cp p.branch) p.branch
            (if p.base == "" then cp.defaultBranch else p.base),
          .copyFilesE (worktreePath cp p.branch),
          .removeWorktreeE (worktreePath cp p.branch),
          .deleteBranchE p.branch], .error ce) := by
      simp [newOp, hv, hvb2, hbe, newAcquire, hbase2, hmk, hadd, newFinish, hce,
        rollbackNewT]
    rw [htr]
    refine ⟨⟨ce, rfl⟩,
      ⟨[.branchExistsQ p.branch,
        .branchExistsQ (if p.base == "" then cp.defaultBranch else p.base),
        .mkdirParentE (worktreePath cp p.branch),
        .addWorktreeNewBranchE (worktreePath cp p.branch) p.branch
          (if p.base == "" then cp.defaultBranch else p.base),
        .copyFilesE (worktreePath cp p.branch)], rfl⟩, ?_, ?_⟩
    · intro initB
      simp [branchesAfter, stepBranches, List.mem_filter]
    · intro initD
      simp [dirsAfter, stepDirs, List.mem_filter]
  · rcases het : ensureTmux o cp cp.sessionName p.branch (worktreePath cp p.branch)
      (buildInitCmd cp true) with ⟨tt, rt⟩
    have hrt : rt = .error te := by rw [het] at hte; exact hte
    subst hrt
    have htmux := ensureTmux_events_tmux o cp cp.sessionName p.branch
      (worktreePath cp p.branch) (buildInitCmd cp true)
    rw [het] at htmux
    have htr : newOp o cp p =
        (([.branchExistsQ p.branch,
           .branchExistsQ (if p.base == "" then cp.defaultBranch else p.base),
           .mkdirParentE (worktreePath cp p.branch),
           .addWorktreeNewBranchE (worktreePath cp p.branch) p.branch
             (if p.base == "" then cp.defaultBranch else p.base),
           .copyFilesE (worktreePath cp p.branch)] ++ tt)
          ++ [.removeWorktreeE (worktreePath cp p.branch), .deleteBranchE p.branch],
         .error te) := by
      simp [newOp, hv, hvb2, hbe, newAcquire, hbase2, hmk, hadd, newFinish, hcopy,
        het, rollbackNewT]
    rw [htr]
    refine ⟨⟨te, rfl⟩, ⟨_, rfl⟩, ?_, ?_⟩
    · intro initB
      simp only [branchesAfter, List.foldl_append, List.foldl_cons, List.foldl_nil,
        stepBranches]
      rw [show List.foldl stepBranches
            (initB ++ [p.branch]) tt
          = branchesAfter tt (initB ++ [p.branch]) from rfl,
        (replay_neutral_trace tt htmux).1]
      simp [List.mem_filter]
    · intro initD
      simp only [dirsAfter, List.foldl_append, List.foldl_cons, List.foldl_nil,
        stepDirs]
      rw [show List.foldl stepDirs (initD ++ [worktreePath cp p.branch]) tt
          = dirsAfter tt (initD ++ [worktreePath cp p.branch]) from rfl,
        (replay_neutral_trace tt htmux).2]
      simp [List.mem_filter]

/-- C4 witness: the rollback theorem applied to the session-failure oracle
at branch `feature` with the configured default base. -/
theorem new_rollback_witness :
    (∃ msg, (newOp oracleNewFail cpStub ⟨"feature", ""⟩).2 = .error msg) ∧
    (∃ pre, (newOp oracleNewFail cpStub ⟨"feature", ""⟩).1
      = pre ++ [.removeWorktreeE (worktreePath cpStub "feature"),
                .deleteBranchE "feature"]) ∧
    (∀ initB, "feature" ∉ branchesAfter (newOp oracleNewFail cpStub ⟨"feature", ""⟩).1 initB) ∧
    (∀ initD, worktreePath cpStub "feature"
      ∉ dirsAfter (newOp oracleNewFail cpStub ⟨"feature", ""⟩).1 initD) :=
  new_rollback oracleNewFail cpStub ⟨"feature", ""⟩ rfl rfl rfl rfl rfl rfl
    (Or.inr ⟨rfl, "tmux error", rfl⟩)

/-- C9 (counterexample): the claim quantifies over every `New` call with an
invalid non-empty base, but the branch name is validated first — when both
are invalid, `New` returns the branch validation error without the
`invalid base branch` prefix. -/
theorem new_base_validation_counterexample :
    newOp oracleStub cpStub ⟨"~", "~"⟩
        = ([], .error "branch name contains invalid character") ∧
      hasPrefixS "branch name contains invalid character" "invalid base branch" = false := by
  exact ⟨rfl, by decide⟩

/-- C9 (amended): for every `New` call whose branch name passes validation
and whose base is non-empty and violates a validation rule, `New` returns
the base reason wrapped with the `invalid base branch` prefix and performs
no adapter call at all (the trace is empty), hence neither queries branch
existence nor mutates either store. -/
theorem new_base_validated_first (o : Oracle) (cp : Params) (p : NewParams)
    (hb : ValidateBranchName p.branch = none) (hne : p.base ≠ "")
    (r : String) (hr : ValidateBranchName p.base = some r) :
    newOp o cp p = ([], .error ("invalid base branch: " ++ r)) := by
  have hbne : (p.base != "") = true := by simpa [bne_iff_ne] using hne
  simp [newOp, hb, hbne, hr]

/-- C5: whenever `PrepareRemove` reaches the probe stage (name valid, not
the default branch, existence queries succeed, some resource exists), the
call returns an ok snapshot for every probe outcome; an errored
uncommitted probe yields `HasUncommitted = false` and an errored
merged-into-default probe yields `IsUnmerged = true` — the two defaults
asymmetric, neither probe error failing the call. -/
theorem prepareRemove_probe_defaults (o : Oracle) (cp : Params) (branch : String)
    (tb : Bool) (wts : List Worktree)
    (hv : ValidateBranchName branch = none)
    (hd : branch ≠ cp.defaultBranch)
    (hbe : o.branchExists branch = .ok tb)
    (hlw : o.listWorktrees = .ok wts)
    (hres : (tb || (findWorktree wts branch).isSome
        || (findWindow (((listWindowsSafeT o cp.sessionName).2).getD []) branch).isSome)
        = true) :
    ∃ check : RemoveCheck, (prepareRemove o cp branch).2 = .ok check ∧
      ((∃ e, o.hasUncommitted = .error e) → check.hasUncommitted = false) ∧
      (tb = true → (∃ e, o.isMerged = .error e) → check.isUnmerged = true) := by
  have hdb : (branch == cp.defaultBranch) = false := by
    simpa using hd
  simp only [prepareRemove, hv, hdb, hbe, hlw, Bool.false_eq_true, if_false, hres,
    Bool.not_true]
  refine ⟨_, rfl, ?_, ?_⟩
  · rintro ⟨e, he⟩
    simp only [he]
    split <;> rfl
  · rintro htb ⟨e, he⟩
    simp [he, htb]

/-- C5 witness: the probe-defaults theorem applied to an oracle where both
probes fail on branch `feat`. -/
theorem prepareRemove_probe_defaults_witness :
    ∃ check : RemoveCheck, (prepareRemove oracleProbeFail cpStub "feat").2 = .ok check ∧
      ((∃ e, oracleProbeFail.hasUncommitted = .error e) → check.hasUncommitted = false) ∧
      (true = true → (∃ e, oracleProbeFail.isMerged = .error e) → check.isUnmerged = true) :=
  prepareRemove_probe_defaults oracleProbeFail cpStub "feat" true
    [⟨"/repo/.worktrees/feat", "feat", false, false⟩] rfl (by decide) rfl rfl (by decide)

/-- C9 witness: the amended theorem applied at branch `feat`, base `..b`. -/
theorem new_base_validated_first_witness :
    newOp oracleStub cpStub ⟨"feat", "..b"⟩
      = ([], .error ("invalid base branch: " ++ "branch name contains \x27..\x27")) :=
  new_base_validated_first oracleStub cpStub ⟨"feat", "..b"⟩ rfl (by decide)
    "branch name contains \x27..\x27" rfl

end Hashi
